import Mathlib

/-!
Verification of the evolutionary-optimizer driver (`main.py`) of the
brain-tumor-NN repository.

The driver file `main.py` is embedded shallowly below.  The collaborating
classes `Optimizer` (optimizer.py) and `Network` (network.py) are not part of
the inspected sources; they are abstracted respectively as an opaque pair of
functions (a population creator and an evolution step, over which all theorems
quantify) and as a record whose behaviour is modelled from the specification.

Machine floats (training accuracies) are modelled as rationals; this is
faithful for every claim below, which only depend on the ordered-field
structure of the scores, never on rounding.
-/

/-- Modelled from the spec: the `Network` class (network.py) is not among the
inspected sources.  Per §3 a genome carries its hyperparameter summary fields
used for tie-breaking (convolutional-layer count, dense-layer count, neuron
count) and a fitness score; per the §9 design note the inspected code keeps
"unset" fitness as the sentinel value zero rather than a nullable field, so
`accuracy = 0` means "fitness unset". -/
structure Network where
  accuracy : ℚ
  nb_layers : ℤ
  nb_dense_layers : ℤ
  nb_neurons : ℤ
  /-- The remaining gene values of the mapping (activation, optimizer,
  dropout, filters, kernel sizes), opaque here: no inspected code reads them
  except for reporting, but they distinguish genomes whose summary fields
  coincide. -/
  genes : List String
deriving DecidableEq

/-- Observable interactions of one run: an invocation of the external training
collaborator for one genome, the completion of a full-population evaluation
round (`train_networks` returning), one breeding step (`optimizer.evolve`),
the hand-off of a ranked list to the reporting collaborator
(`print_networks`), and a CSV export (`generate_top_network_file`). -/
inductive Event where
  | trainCall (x : Network) (dataset : String)
  | evalDone (pop : List Network)
  | evolveStep
  | reportTop (pop : List Network)
  | writeCSV (pop : List Network)
deriving DecidableEq

def isTrainCall : Event → Bool
  | Event.trainCall _ _ => true
  | _ => false

def isEvalDone : Event → Bool
  | Event.evalDone _ => true
  | _ => false

def isEvolveStep : Event → Bool
  | Event.evolveStep => true
  | _ => false

def isReportTop : Event → Bool
  | Event.reportTop _ => true
  | _ => false

def isWriteCSV : Event → Bool
  | Event.writeCSV _ => true
  | _ => false

/-- The external training collaborator (§6): takes a genome and a dataset
identifier, returns an accuracy or fails.  All theorems quantify over it. -/
def Trainer : Type := Network → String → Except Unit ℚ

/-- Modelled from the spec: `Network.train` (network.py) is not among the
inspected sources.  Per §4.3 a genome whose fitness is unset is submitted to
the training collaborator and the returned accuracy recorded; a genome that
already carries a cached fitness is not re-submitted; a training failure is
contained by recording the worst possible value (zero) instead of
propagating. -/
def Network.train (trainer : Trainer) (dataset : String) (x : Network) :
    Network × List Event :=
  if x.accuracy = 0 then
    match trainer x dataset with
    | Except.ok a => ({ x with accuracy := a }, [Event.trainCall x dataset])
    | Except.error _ => ({ x with accuracy := 0 }, [Event.trainCall x dataset])
  else (x, [])

/-- The per-genome loop body of `train_networks` (main.py lines 22-26):
train each network of the population in order, collecting the interaction
events. -/
def trainEach (trainer : Trainer) (dataset : String) :
    List Network → List Network × List Event
  | [] => ([], [])
  | x :: xs =>
    let r := Network.train trainer dataset x
    let rs := trainEach trainer dataset xs
    (r.1 :: rs.1, r.2 ++ rs.2)

/-- `train_networks` (main.py lines 15-26): trains every network of the
current population; the trailing `evalDone` event marks its return, after the
whole population has been processed. -/
def train_networks (trainer : Trainer) (networks : List Network)
    (dataset : String) : List Network × List Event :=
  let r := trainEach trainer dataset networks
  (r.1, r.2 ++ [Event.evalDone networks])

/-- `get_average_accuracy` (main.py lines 28-42): sums every network's
accuracy with a running total and divides by the population size.  Python
raises `ZeroDivisionError` on an empty list, embedded as `none`. -/
def get_average_accuracy (networks : List Network) : Option ℚ :=
  let total := networks.foldl (fun acc x => acc + x.accuracy) 0
  if networks.length = 0 then none
  else some (total / (networks.length : ℚ))

/-- The sort key of main.py line 78: the Python tuple
`(x.accuracy, -x.nb_layers, -x.nb_dense_layers, -x.nb_neurons)` compared
lexicographically. -/
def sortKey (x : Network) : ℚ ×ₗ ℤ ×ₗ ℤ ×ₗ ℤ :=
  toLex (x.accuracy, toLex (-x.nb_layers, toLex (-x.nb_dense_layers, -x.nb_neurons)))

/-- The comparator realised by `sorted(..., key=..., reverse=True)` on
main.py line 78: `a` may stay before `b` exactly when `a`'s key is at least
`b`'s key (Python's reverse sort is stable, so equal keys keep input order). -/
def networkBefore (a b : Network) : Prop := sortKey b ≤ sortKey a

instance : DecidableRel networkBefore :=
  fun a b => inferInstanceAs (Decidable (sortKey b ≤ sortKey a))

instance : IsTotal Network networkBefore :=
  ⟨fun a b => le_total (sortKey b) (sortKey a)⟩

instance : IsTrans Network networkBefore :=
  ⟨fun _ _ _ h1 h2 => le_trans h2 h1⟩

/-- The final population sort of main.py line 78.  Python's `sorted` is a
stable sort, and all stable sorts of a list under one comparator return the
same list, so it is embedded as stable insertion sort. -/
def sortNetworks (l : List Network) : List Network :=
  l.insertionSort networkBefore

/-- `print_networks` (main.py lines 84-95): hands the given ranked list to the
reporting collaborator. -/
def print_networks (networks : List Network) : List Event :=
  [Event.reportTop networks]

/-- `generate_top_network_file` (main.py lines 97-100): writes the given
networks as rows of `meta/top_10.csv`. -/
def generate_top_network_file (networks : List Network) : List Event :=
  [Event.writeCSV networks]

/-- The `Optimizer` class (optimizer.py) is not among the inspected sources;
only its two entry points used by `generate` matter here, so it is abstracted
as that pair of functions and every theorem quantifies over them. -/
structure Optimizer where
  create_population : ℕ → List Network
  evolve : List Network → List Network

/-- The generation loop of `generate` (main.py lines 58-75), by remaining
iterations: `rem + 1` iterations left means the current one is the last
exactly when `rem = 0` (Python's `i != generations - 1` test).  Each iteration
trains the population, computes the generation average (a `ZeroDivisionError`
on an empty population aborts the run, embedded as `none`), and evolves except
on the last iteration. -/
def genLoop (opt : Optimizer) (trainer : Trainer) (dataset : String) :
    ℕ → List Network → Option (List Network × List Event)
  | 0, networks => some (networks, [])
  | rem + 1, networks =>
    let r := train_networks trainer networks dataset
    match get_average_accuracy r.1 with
    | none => none
    | some _ =>
      if rem = 0 then
        match genLoop opt trainer dataset rem r.1 with
        | none => none
        | some fin => some (fin.1, r.2 ++ fin.2)
      else
        match genLoop opt trainer dataset rem (opt.evolve r.1) with
        | none => none
        | some fin => some (fin.1, r.2 ++ [Event.evolveStep] ++ fin.2)

/-- `generate` (main.py lines 44-80): create the initial population, run the
generation loop, sort the final population and report its top 5. -/
def generate (opt : Optimizer) (trainer : Trainer) (dataset : String)
    (generations population : ℕ) : Option (List Event) :=
  let networks := opt.create_population population
  match genLoop opt trainer dataset generations networks with
  | none => none
  | some fin => some (fin.2 ++ print_networks ((sortNetworks fin.1).take 5))

/-- `main` (main.py lines 103-124): twelve generations, population twenty
(the `nn_param_choices` dictionary is consumed by the `Optimizer` constructor,
abstracted into `opt`).  Named `main_run` because Lean reserves `main`. -/
def main_run (opt : Optimizer) (trainer : Trainer) (dataset : String) :
    Option (List Event) :=
  generate opt trainer dataset 12 20

/-- The final-ranking order exactly as the spec words it: genomes ordered by
fitness descending, ties broken by fewer convolutional layers first, then
fewer dense layers, then fewer neurons.  Stated independently of the sort
key of main.py line 78, to be compared with it. -/
def specGE (a b : Network) : Prop :=
  b.accuracy < a.accuracy ∨ (b.accuracy = a.accuracy ∧
    (a.nb_layers < b.nb_layers ∨ (b.nb_layers = a.nb_layers ∧
      (a.nb_dense_layers < b.nb_dense_layers ∨ (b.nb_dense_layers = a.nb_dense_layers ∧
        a.nb_neurons ≤ b.nb_neurons)))))

/-! ### Concrete instances used by the closed witnesses -/

def demoNet : Network := ⟨0, 3, 1, 128, []⟩

def demoNet5 : Network := ⟨0, 5, 2, 256, []⟩

def demoCachedNet : Network := ⟨1, 3, 1, 128, []⟩

def demoOpt : Optimizer := ⟨fun n => List.replicate n demoNet, fun l => l⟩

def demoTrainer : Trainer := fun _ _ => Except.ok 1

def demoFailTrainer : Trainer :=
  fun x _ => if x.nb_layers = 5 then Except.error () else Except.ok 1

def demoTrace : List Event := (generate demoOpt demoTrainer "d" 3 2).getD []

def demoMainTrace : List Event := (main_run demoOpt demoTrainer "d").getD []

def demoLoopRes : List Network × List Event :=
  (genLoop demoOpt demoTrainer "d" 3 (demoOpt.create_population 2)).getD ([], [])

def demoPop5 : List Network := [demoNet, demoNet, demoNet5, demoNet, demoNet]

def demoCachedPop : List Network := [demoNet, demoCachedNet]

def demoTieA : Network := ⟨mkRat 9 10, 3, 1, 128, ["relu"]⟩

def demoTieB : Network := ⟨mkRat 9 10, 5, 1, 128, ["relu"]⟩

def demoTieA2 : Network := ⟨mkRat 9 10, 3, 1, 128, ["elu"]⟩

def demoAvgPop : List Network := [demoCachedNet, demoTieA]

/-! ### List helpers -/

theorem prefix_append_cases {α : Type} {p l₁ l₂ : List α} (h : p <+: l₁ ++ l₂) :
    p <+: l₁ ∨ ∃ q, p = l₁ ++ q ∧ q <+: l₂ := by
  induction l₁ generalizing p with
  | nil => exact Or.inr ⟨p, rfl, h⟩
  | cons a l₁ ih =>
    cases p with
    | nil => exact Or.inl List.nil_prefix
    | cons b p =>
      obtain ⟨t, ht⟩ := h
      injection ht with hb hrest
      subst hb
      rcases ih ⟨t, hrest⟩ with h' | ⟨q, rfl, hq⟩
      · obtain ⟨u, hu⟩ := h'
        exact Or.inl ⟨u, by rw [List.cons_append, hu]⟩
      · exact Or.inr ⟨q, rfl, hq⟩

theorem prefix_cons_cases {α : Type} {p : List α} {a : α} {l : List α}
    (h : p <+: a :: l) : p = [] ∨ ∃ q, p = a :: q ∧ q <+: l := by
  cases p with
  | nil => exact Or.inl rfl
  | cons b p =>
    obtain ⟨t, ht⟩ := h
    injection ht with hb hrest
    subst hb
    exact Or.inr ⟨p, rfl, ⟨t, hrest⟩⟩

theorem suffix_append_cases {α : Type} {s l₁ l₂ : List α} (h : s <:+ l₁ ++ l₂) :
    s <:+ l₂ ∨ ∃ s₁, s = s₁ ++ l₂ ∧ s₁ <:+ l₁ := by
  induction l₁ with
  | nil => exact Or.inl h
  | cons a l₁ ih =>
    rcases List.suffix_cons_iff.1 h with h' | h'
    · exact Or.inr ⟨a :: l₁, by simpa using h', List.suffix_refl _⟩
    · rcases ih h' with h'' | ⟨s₁, rfl, hs₁⟩
      · exact Or.inl h''
      · exact Or.inr ⟨s₁, rfl, hs₁.trans (List.suffix_cons a l₁)⟩

/-! ### Evaluation-step lemmas -/

/-- The events emitted while training one genome: exactly one submission to
the training collaborator when its fitness is unset, none otherwise. -/
theorem Network.train_events (trainer : Trainer) (dataset : String) (x : Network) :
    (Network.train trainer dataset x).2
      = if x.accuracy = 0 then [Event.trainCall x dataset] else [] := by
  unfold Network.train
  split
  · split <;> rfl
  · rfl

/-- Training one genome leaves it unchanged when its fitness is cached. -/
theorem Network.train_cached (trainer : Trainer) (dataset : String) (x : Network)
    (h : x.accuracy ≠ 0) : (Network.train trainer dataset x).1 = x := by
  unfold Network.train
  simp [h]

/-- A failing training run records the worst possible fitness, zero. -/
theorem Network.train_failure (trainer : Trainer) (dataset : String) (x : Network)
    (h : trainer x dataset = Except.error ()) :
    (Network.train trainer dataset x).1.accuracy = 0 ∨
      (Network.train trainer dataset x).1 = x := by
  unfold Network.train
  split
  · rw [h]
    exact Or.inl rfl
  · exact Or.inr rfl

theorem trainEach_fst (trainer : Trainer) (dataset : String) (l : List Network) :
    (trainEach trainer dataset l).1
      = l.map (fun x => (Network.train trainer dataset x).1) := by
  induction l with
  | nil => rfl
  | cons x xs ih => simp [trainEach, ih]

theorem trainEach_length (trainer : Trainer) (dataset : String) (l : List Network) :
    (trainEach trainer dataset l).1.length = l.length := by
  rw [trainEach_fst]; exact List.length_map _ _

theorem trainEach_events_isTrainCall (trainer : Trainer) (dataset : String)
    (l : List Network) :
    ∀ e ∈ (trainEach trainer dataset l).2, isTrainCall e = true := by
  induction l with
  | nil => intro e he; simp [trainEach] at he
  | cons x xs ih =>
    intro e he
    simp only [trainEach, List.mem_append] at he
    rcases he with he | he
    · rw [Network.train_events] at he
      split at he
      · simp at he; subst he; rfl
      · simp at he
    · exact ih e he

theorem countP_trainEach (trainer : Trainer) (dataset : String) (l : List Network) :
    List.countP isTrainCall (trainEach trainer dataset l).2
      = List.countP (fun x => decide (x.accuracy = 0)) l := by
  induction l with
  | nil => rfl
  | cons x xs ih =>
    simp only [trainEach, List.countP_append, List.countP_cons, ih,
      Network.train_events]
    split
    · rename_i hx
      simp [isTrainCall, hx, Nat.add_comm]
    · rename_i hx
      simp [hx]

theorem countP_trainEach_eq_zero (p : Event → Bool)
    (hp : ∀ x d, p (Event.trainCall x d) = false)
    (trainer : Trainer) (dataset : String) (l : List Network) :
    List.countP p (trainEach trainer dataset l).2 = 0 := by
  rw [List.countP_eq_zero]
  intro e he
  have := trainEach_events_isTrainCall trainer dataset l e he
  cases e with
  | trainCall x d => simp [hp]
  | evalDone _ => simp [isTrainCall] at this
  | evolveStep => simp [isTrainCall] at this
  | reportTop _ => simp [isTrainCall] at this
  | writeCSV _ => simp [isTrainCall] at this

theorem train_networks_fst (trainer : Trainer) (networks : List Network)
    (dataset : String) :
    (train_networks trainer networks dataset).1
      = networks.map (fun x => (Network.train trainer dataset x).1) := by
  unfold train_networks
  exact trainEach_fst trainer dataset networks

theorem train_networks_length (trainer : Trainer) (networks : List Network)
    (dataset : String) :
    (train_networks trainer networks dataset).1.length = networks.length := by
  rw [train_networks_fst]; exact List.length_map _ _

theorem train_networks_events (trainer : Trainer) (networks : List Network)
    (dataset : String) :
    (train_networks trainer networks dataset).2
      = (trainEach trainer dataset networks).2 ++ [Event.evalDone networks] := rfl

theorem countP_evalDone_train_networks (trainer : Trainer) (networks : List Network)
    (dataset : String) :
    List.countP isEvalDone (train_networks trainer networks dataset).2 = 1 := by
  rw [train_networks_events, List.countP_append,
    countP_trainEach_eq_zero isEvalDone (fun _ _ => rfl)]
  rfl

theorem countP_evolveStep_train_networks (trainer : Trainer) (networks : List Network)
    (dataset : String) :
    List.countP isEvolveStep (train_networks trainer networks dataset).2 = 0 := by
  rw [train_networks_events, List.countP_append,
    countP_trainEach_eq_zero isEvolveStep (fun _ _ => rfl)]
  rfl

theorem countP_trainCall_train_networks (trainer : Trainer) (networks : List Network)
    (dataset : String) :
    List.countP isTrainCall (train_networks trainer networks dataset).2
      = List.countP (fun x => decide (x.accuracy = 0)) networks := by
  rw [train_networks_events, List.countP_append, countP_trainEach]
  rfl

/-! ### Average lemmas -/

theorem get_average_accuracy_nil : get_average_accuracy [] = none := rfl

theorem get_average_accuracy_of_ne_nil (l : List Network) (h : l ≠ []) :
    get_average_accuracy l
      = some ((l.foldl (fun acc x => acc + x.accuracy) 0) / (l.length : ℚ)) := by
  unfold get_average_accuracy
  simp [List.length_eq_zero, h]

/-! ### Generation-loop lemmas -/

theorem genLoop_countP_evalDone (opt : Optimizer) (trainer : Trainer) (dataset : String) :
    ∀ (rem : ℕ) (pop fin : List Network) (es : List Event),
      genLoop opt trainer dataset rem pop = some (fin, es) →
      List.countP isEvalDone es = rem := by
  intro rem
  induction rem with
  | zero =>
    intro pop fin es h
    simp only [genLoop, Option.some.injEq, Prod.mk.injEq] at h
    rw [← h.2]
    rfl
  | succ rem ih =>
    intro pop fin es h
    simp only [genLoop] at h
    split at h
    · exact absurd h (by simp)
    · split at h
      · split at h
        · exact absurd h (by simp)
        · rename_i fin' hrec
          rw [Option.some.injEq, Prod.mk.injEq] at h
          rw [← h.2, List.countP_append, countP_evalDone_train_networks,
            ih _ fin'.1 fin'.2 hrec]
          omega
      · split at h
        · exact absurd h (by simp)
        · rename_i fin' hrec
          rw [Option.some.injEq, Prod.mk.injEq] at h
          have hone : List.countP isEvalDone [Event.evolveStep] = 0 := rfl
          rw [← h.2, List.countP_append, List.countP_append,
            countP_evalDone_train_networks, ih _ fin'.1 fin'.2 hrec, hone]
          omega

theorem genLoop_countP_evolveStep (opt : Optimizer) (trainer : Trainer) (dataset : String) :
    ∀ (rem : ℕ) (pop fin : List Network) (es : List Event),
      genLoop opt trainer dataset rem pop = some (fin, es) →
      List.countP isEvolveStep es = rem - 1 := by
  intro rem
  induction rem with
  | zero =>
    intro pop fin es h
    simp only [genLoop, Option.some.injEq, Prod.mk.injEq] at h
    rw [← h.2]
    rfl
  | succ rem ih =>
    intro pop fin es h
    simp only [genLoop] at h
    split at h
    · exact absurd h (by simp)
    · split at h
      · rename_i hrem
        split at h
        · exact absurd h (by simp)
        · rename_i fin' hrec
          rw [Option.some.injEq, Prod.mk.injEq] at h
          rw [← h.2, List.countP_append, countP_evolveStep_train_networks,
            ih _ fin'.1 fin'.2 hrec, hrem]
      · rename_i hrem
        split at h
        · exact absurd h (by simp)
        · rename_i fin' hrec
          rw [Option.some.injEq, Prod.mk.injEq] at h
          have := ih _ fin'.1 fin'.2 hrec
          have hone : List.countP isEvolveStep [Event.evolveStep] = 1 := rfl
          rw [← h.2, List.countP_append, List.countP_append,
            countP_evolveStep_train_networks, this, hone]
          omega

theorem genLoop_isSome (opt : Optimizer) (trainer : Trainer) (dataset : String)
    (hevolve : ∀ l : List Network, l ≠ [] → opt.evolve l ≠ []) :
    ∀ (rem : ℕ) (pop : List Network), pop ≠ [] →
      ∃ fin es, genLoop opt trainer dataset rem pop = some (fin, es) := by
  intro rem
  induction rem with
  | zero => intro pop _; exact ⟨pop, [], rfl⟩
  | succ rem ih =>
    intro pop hp
    have hlen : (train_networks trainer pop dataset).1 ≠ [] := by
      intro hnil
      have := train_networks_length trainer pop dataset
      rw [hnil] at this
      exact hp (List.length_eq_zero.1 this.symm)
    obtain ⟨q, hq⟩ : ∃ q,
        get_average_accuracy (train_networks trainer pop dataset).1 = some q := by
      rw [get_average_accuracy_of_ne_nil _ hlen]
      exact ⟨_, rfl⟩
    by_cases hrem : rem = 0
    · subst hrem
      refine ⟨(train_networks trainer pop dataset).1,
        (train_networks trainer pop dataset).2 ++ [], ?_⟩
      simp only [genLoop]
      rw [hq]
      simp
    · obtain ⟨fin, es, hfin⟩ :=
        ih (opt.evolve (train_networks trainer pop dataset).1) (hevolve _ hlen)
      refine ⟨fin, (train_networks trainer pop dataset).2 ++ [Event.evolveStep] ++ es, ?_⟩
      simp only [genLoop]
      rw [hq, if_neg hrem, hfin]

/-- Inside one evaluation round no breeding step occurs: any part of the
events of `train_networks` counts zero `evolveStep`s. -/
theorem countP_evolveStep_of_sublist_round {trainer : Trainer} {pop : List Network}
    {dataset : String} {p : List Event}
    (hp : p.Sublist (train_networks trainer pop dataset).2) :
    List.countP isEvolveStep p = 0 :=
  Nat.le_zero.1 (le_of_le_of_eq (hp.countP_le _)
    (countP_evolveStep_train_networks trainer pop dataset))

/-- Barrier, prefix form: at every point of a run's event stream, at most as
many breeding steps have started as full-population evaluation rounds have
completed. -/
theorem genLoop_barrier_prefix (opt : Optimizer) (trainer : Trainer) (dataset : String) :
    ∀ (rem : ℕ) (pop fin : List Network) (es : List Event),
      genLoop opt trainer dataset rem pop = some (fin, es) →
      ∀ p, p <+: es → List.countP isEvolveStep p ≤ List.countP isEvalDone p := by
  intro rem
  induction rem with
  | zero =>
    intro pop fin es h p hp
    simp only [genLoop, Option.some.injEq, Prod.mk.injEq] at h
    rw [← h.2] at hp
    rw [List.prefix_nil.1 hp]
    simp
  | succ rem ih =>
    intro pop fin es h p hp
    simp only [genLoop] at h
    split at h
    · exact absurd h (by simp)
    · split at h
      · split at h
        · exact absurd h (by simp)
        · rename_i fin' hrec
          rw [Option.some.injEq, Prod.mk.injEq] at h
          rw [← h.2] at hp
          rcases prefix_append_cases hp with hp' | ⟨q, rfl, hq⟩
          · rw [countP_evolveStep_of_sublist_round hp'.sublist]
            exact Nat.zero_le _
          · have h0 := countP_evolveStep_train_networks trainer pop dataset
            have h1 := countP_evalDone_train_networks trainer pop dataset
            have h2 := ih _ fin'.1 fin'.2 hrec q hq
            rw [List.countP_append, List.countP_append, h0, h1]
            omega
      · split at h
        · exact absurd h (by simp)
        · rename_i fin' hrec
          rw [Option.some.injEq, Prod.mk.injEq] at h
          rw [← h.2, List.append_assoc] at hp
          rcases prefix_append_cases hp with hp' | ⟨q, rfl, hq⟩
          · rw [countP_evolveStep_of_sublist_round hp'.sublist]
            exact Nat.zero_le _
          · have h0 := countP_evolveStep_train_networks trainer pop dataset
            have h1 := countP_evalDone_train_networks trainer pop dataset
            rw [List.countP_append, List.countP_append, h0, h1]
            rcases prefix_cons_cases hq with rfl | ⟨q', rfl, hq'⟩
            · simp
            · have h2 := ih _ fin'.1 fin'.2 hrec q' hq'
              have h3 : List.countP isEvolveStep (Event.evolveStep :: q')
                  = List.countP isEvolveStep q' + 1 := by
                rw [List.countP_cons]
                rfl
              have h4 : List.countP isEvalDone (Event.evolveStep :: q')
                  = List.countP isEvalDone q' := by
                rw [List.countP_cons]
                rfl
              rw [h3, h4]
              omega

/-- Barrier, suffix form: from every point of a run's event stream onwards,
at most as many breeding steps remain as evaluation rounds remain; in
particular no breeding step follows the final evaluation round. -/
theorem genLoop_barrier_suffix (opt : Optimizer) (trainer : Trainer) (dataset : String) :
    ∀ (rem : ℕ) (pop fin : List Network) (es : List Event),
      genLoop opt trainer dataset rem pop = some (fin, es) →
      ∀ s, s <:+ es → List.countP isEvolveStep s ≤ List.countP isEvalDone s := by
  intro rem
  induction rem with
  | zero =>
    intro pop fin es h s hs
    simp only [genLoop, Option.some.injEq, Prod.mk.injEq] at h
    rw [← h.2] at hs
    rw [List.suffix_nil.1 hs]
    simp
  | succ rem ih =>
    intro pop fin es h s hs
    simp only [genLoop] at h
    split at h
    · exact absurd h (by simp)
    · split at h
      · split at h
        · exact absurd h (by simp)
        · rename_i fin' hrec
          rw [Option.some.injEq, Prod.mk.injEq] at h
          rw [← h.2] at hs
          rcases suffix_append_cases hs with hs' | ⟨s₁, rfl, hs₁⟩
          · exact ih _ fin'.1 fin'.2 hrec s hs'
          · have h0 := countP_evolveStep_of_sublist_round hs₁.sublist
            have h2 := ih _ fin'.1 fin'.2 hrec fin'.2 (List.suffix_refl _)
            rw [List.countP_append, List.countP_append, h0]
            omega
      · rename_i hrem
        split at h
        · exact absurd h (by simp)
        · rename_i fin' hrec
          rw [Option.some.injEq, Prod.mk.injEq] at h
          rw [← h.2, List.append_assoc] at hs
          have h2 := genLoop_countP_evalDone opt trainer dataset
            rem _ fin'.1 fin'.2 hrec
          have h3 := genLoop_countP_evolveStep opt trainer dataset
            rem _ fin'.1 fin'.2 hrec
          have h6 : List.countP isEvolveStep [Event.evolveStep] = 1 := rfl
          have h7 : List.countP isEvalDone [Event.evolveStep] = 0 := rfl
          rcases @suffix_append_cases Event _ ((train_networks trainer pop dataset).2)
              ([Event.evolveStep] ++ fin'.2) hs with hs' | ⟨s₁, rfl, hs₁⟩
          · rw [List.singleton_append] at hs'
            rcases List.suffix_cons_iff.1 hs' with rfl | hs''
            · have h4 : List.countP isEvolveStep (Event.evolveStep :: fin'.2)
                  = List.countP isEvolveStep fin'.2 + 1 := by
                rw [List.countP_cons]
                rfl
              have h5 : List.countP isEvalDone (Event.evolveStep :: fin'.2)
                  = List.countP isEvalDone fin'.2 := by
                rw [List.countP_cons]
                rfl
              rw [h4, h5, h2, h3]
              omega
            · exact ih _ fin'.1 fin'.2 hrec s hs''
          · have h0 := countP_evolveStep_of_sublist_round hs₁.sublist
            simp only [List.countP_append]
            rw [h0, h2, h3, h6, h7]
            omega

/-! ### Ordering lemmas -/

theorem networkBefore_total (a b : Network) : networkBefore a b ∨ networkBefore b a :=
  le_total (sortKey b) (sortKey a)

theorem networkBefore_trans (a b c : Network)
    (h1 : networkBefore a b) (h2 : networkBefore b c) : networkBefore a c :=
  le_trans h2 h1

/-- The comparator of main.py line 78 coincides with the ranking order as the
spec words it. -/
theorem networkBefore_iff (a b : Network) : networkBefore a b ↔ specGE a b := by
  unfold networkBefore specGE sortKey
  rw [Prod.Lex.le_iff]
  simp only [Prod.Lex.le_iff, neg_lt_neg_iff, neg_inj, neg_le_neg_iff]

theorem sortNetworks_perm (l : List Network) : (sortNetworks l).Perm l :=
  List.perm_insertionSort networkBefore l

theorem sortNetworks_sorted (l : List Network) :
    List.Sorted networkBefore (sortNetworks l) :=
  List.sorted_insertionSort networkBefore l

theorem sortNetworks_sorted_spec (l : List Network) :
    List.Sorted specGE (sortNetworks l) :=
  List.Pairwise.imp (fun h => (networkBefore_iff _ _).1 h) (sortNetworks_sorted l)

theorem sortNetworks_stable {l c : List Network}
    (hc : List.Pairwise networkBefore c) (hs : c.Sublist l) :
    c.Sublist (sortNetworks l) :=
  List.sublist_insertionSort hc hs

/-! ### Run-level lemmas -/

/-- Every event emitted inside the generation loop is a training-collaborator
call, an evaluation-round completion, or a breeding step. -/
theorem genLoop_events_cases (opt : Optimizer) (trainer : Trainer) (dataset : String) :
    ∀ (rem : ℕ) (pop fin : List Network) (es : List Event),
      genLoop opt trainer dataset rem pop = some (fin, es) →
      ∀ e ∈ es, isTrainCall e = true ∨ isEvalDone e = true ∨ isEvolveStep e = true := by
  intro rem
  induction rem with
  | zero =>
    intro pop fin es h e he
    simp only [genLoop, Option.some.injEq, Prod.mk.injEq] at h
    rw [← h.2] at he
    simp at he
  | succ rem ih =>
    intro pop fin es h e he
    simp only [genLoop] at h
    split at h
    · exact absurd h (by simp)
    · split at h
      · split at h
        · exact absurd h (by simp)
        · rename_i fin' hrec
          rw [Option.some.injEq, Prod.mk.injEq] at h
          rw [← h.2] at he
          rcases List.mem_append.1 he with he1 | he2
          · rw [train_networks_events] at he1
            rcases List.mem_append.1 he1 with he5 | he6
            · exact Or.inl (trainEach_events_isTrainCall trainer dataset pop e he5)
            · rw [List.mem_singleton.1 he6]
              exact Or.inr (Or.inl rfl)
          · exact ih _ fin'.1 fin'.2 hrec e he2
      · split at h
        · exact absurd h (by simp)
        · rename_i fin' hrec
          rw [Option.some.injEq, Prod.mk.injEq] at h
          rw [← h.2] at he
          rcases List.mem_append.1 he with he1 | he2
          · rcases List.mem_append.1 he1 with he3 | he4
            · rw [train_networks_events] at he3
              rcases List.mem_append.1 he3 with he5 | he6
              · exact Or.inl (trainEach_events_isTrainCall trainer dataset pop e he5)
              · rw [List.mem_singleton.1 he6]
                exact Or.inr (Or.inl rfl)
            · rw [List.mem_singleton.1 he4]
              exact Or.inr (Or.inr rfl)
          · exact ih _ fin'.1 fin'.2 hrec e he2

/-- Unfolding of a successful `generate` run: the loop's events followed by
the single hand-off of the sorted top five to the reporting collaborator. -/
theorem generate_inv {opt : Optimizer} {trainer : Trainer} {dataset : String}
    {G p : ℕ} {es : List Event}
    (h : generate opt trainer dataset G p = some es) :
    ∃ fin les,
      genLoop opt trainer dataset G (opt.create_population p) = some (fin, les)
        ∧ es = les ++ [Event.reportTop ((sortNetworks fin).take 5)] := by
  simp only [generate] at h
  split at h
  · exact absurd h (by simp)
  · rename_i fin hfin
    rw [Option.some.injEq] at h
    exact ⟨fin.1, fin.2, hfin, h.symm⟩

/-- Events of the generation loop never satisfy a predicate that rejects
training calls, round completions and breeding steps. -/
theorem genLoop_events_filter (opt : Optimizer) (trainer : Trainer) (dataset : String)
    {rem : ℕ} {pop fin : List Network} {es : List Event}
    (h : genLoop opt trainer dataset rem pop = some (fin, es))
    (p : Event → Bool)
    (hp : ∀ x d, p (Event.trainCall x d) = false)
    (hq : ∀ l, p (Event.evalDone l) = false)
    (hr : p Event.evolveStep = false) :
    es.filter p = [] := by
  rw [List.filter_eq_nil_iff]
  intro e he
  have hk := genLoop_events_cases opt trainer dataset rem pop fin es h e he
  cases e with
  | trainCall x d => simp [hp]
  | evalDone l => simp [hq]
  | evolveStep => simp [hr]
  | reportTop l =>
    rcases hk with hk | hk | hk <;>
      simp [isTrainCall, isEvalDone, isEvolveStep] at hk
  | writeCSV l =>
    rcases hk with hk | hk | hk <;>
      simp [isTrainCall, isEvalDone, isEvolveStep] at hk

/-! ### Claims -/

/-- C1: for every run of `generate` with generation count `G ≥ 1`, the
evaluation step (`train_networks` over the entire current population) is
performed exactly `G` times, once per loop iteration, with no iteration
skipped. -/
theorem generate_eval_rounds_count (opt : Optimizer) (trainer : Trainer)
    (dataset : String) (G p : ℕ) (es : List Event) (_hG : 1 ≤ G)
    (h : generate opt trainer dataset G p = some es) :
    List.countP isEvalDone es = G := by
  obtain ⟨fin, les, hloop, rfl⟩ := generate_inv h
  have h1 := genLoop_countP_evalDone opt trainer dataset G _ fin les hloop
  have h2 : List.countP isEvalDone
      [Event.reportTop ((sortNetworks fin).take 5)] = 0 := rfl
  rw [List.countP_append, h1, h2]
  omega

/-- Closed instance of C1: a three-generation run on a two-genome population
completes exactly three evaluation rounds. -/
theorem generate_eval_rounds_count_witness :
    List.countP isEvalDone demoTrace = 3 :=
  generate_eval_rounds_count demoOpt demoTrainer "d" 3 2 demoTrace
    (by decide) (by rfl)

/-- C2: for every run of `generate` with `G ≥ 1` generations, `evolve` is
invoked exactly `G - 1` times; at every point of the run at most as many
breeding steps have occurred as full-population evaluation rounds have
completed (each `evolve` happens only after `train_networks` finished the
whole current generation — the evaluation-before-breeding barrier), and from
every point onwards at most as many breeding steps remain as evaluation
rounds remain (so `evolve` is never invoked after the final evaluation
round). -/
theorem generate_evolve_count_barrier (opt : Optimizer) (trainer : Trainer)
    (dataset : String) (G p : ℕ) (es : List Event) (_hG : 1 ≤ G)
    (h : generate opt trainer dataset G p = some es) :
    List.countP isEvolveStep es = G - 1
      ∧ (∀ q, q <+: es → List.countP isEvolveStep q ≤ List.countP isEvalDone q)
      ∧ (∀ s, s <:+ es → List.countP isEvolveStep s ≤ List.countP isEvalDone s) := by
  obtain ⟨fin, les, hloop, rfl⟩ := generate_inv h
  have hrt0 : List.countP isEvolveStep
      [Event.reportTop ((sortNetworks fin).take 5)] = 0 := rfl
  have hrtD : List.countP isEvalDone
      [Event.reportTop ((sortNetworks fin).take 5)] = 0 := rfl
  refine ⟨?_, ?_, ?_⟩
  · rw [List.countP_append, hrt0,
      genLoop_countP_evolveStep opt trainer dataset G _ fin les hloop]
    omega
  · intro q hq
    rcases prefix_append_cases hq with hq' | ⟨q', rfl, hq'⟩
    · exact genLoop_barrier_prefix opt trainer dataset G _ fin les hloop q hq'
    · have hc1 := genLoop_countP_evolveStep opt trainer dataset G _ fin les hloop
      have hc2 := genLoop_countP_evalDone opt trainer dataset G _ fin les hloop
      have hq0 : List.countP isEvolveStep q' = 0 := by
        have := hq'.sublist.countP_le isEvolveStep
        rw [hrt0] at this
        omega
      rw [List.countP_append, List.countP_append, hc1, hc2, hq0]
      omega
  · intro s hs
    rcases suffix_append_cases hs with hs' | ⟨s₁, rfl, hs₁⟩
    · have h0 : List.countP isEvolveStep s = 0 := by
        have := hs'.sublist.countP_le isEvolveStep
        rw [hrt0] at this
        omega
      rw [h0]
      exact Nat.zero_le _
    · have h1 := genLoop_barrier_suffix opt trainer dataset G _ fin les hloop s₁ hs₁
      rw [List.countP_append, List.countP_append, hrt0, hrtD]
      omega

/-- Closed instance of C2: a three-generation run breeds exactly twice. -/
theorem generate_evolve_count_barrier_witness :
    List.countP isEvolveStep demoTrace = 2 :=
  (generate_evolve_count_barrier demoOpt demoTrainer "d" 3 2 demoTrace
    (by decide) (by rfl)).1

/-- C3: within one evaluation round the number of submissions to the training
collaborator equals the number of genomes whose fitness is unset; a genome
carrying a cached fitness is neither re-submitted nor changed. -/
theorem train_networks_caching (trainer : Trainer) (dataset : String)
    (pop : List Network) :
    List.countP isTrainCall (train_networks trainer pop dataset).2
        = List.countP (fun x => decide (x.accuracy = 0)) pop
      ∧ ∀ x ∈ pop, x.accuracy ≠ 0 →
          (Network.train trainer dataset x).2 = []
            ∧ (Network.train trainer dataset x).1 = x := by
  refine ⟨countP_trainCall_train_networks trainer pop dataset, ?_⟩
  intro x _ hx
  refine ⟨?_, Network.train_cached trainer dataset x hx⟩
  rw [Network.train_events]
  simp [hx]

/-- Closed instance of C3: in a two-genome population with one cached elite,
exactly one genome is submitted for training and the elite is untouched. -/
theorem train_networks_caching_witness :
    List.countP isTrainCall (train_networks demoTrainer demoCachedPop "d").2 = 1
      ∧ (Network.train demoTrainer "d" demoCachedNet).2 = [] := by
  refine ⟨?_, ((train_networks_caching demoTrainer "d" demoCachedPop).2
    demoCachedNet (by decide) (by decide)).1⟩
  rw [(train_networks_caching demoTrainer "d" demoCachedPop).1]
  decide

/-- C4: the final sort orders genomes by fitness descending with ties broken
by fewer convolutional layers, then fewer dense layers, then fewer neurons:
it permutes the population and its result is sorted for the ranking relation
exactly as the spec words it; in particular two genomes of equal fitness with
layer counts 5 and 3 are ordered with the 3-layer genome first. -/
theorem sortNetworks_spec_order :
    (∀ l : List Network,
        (sortNetworks l).Perm l ∧ List.Sorted specGE (sortNetworks l))
      ∧ sortNetworks [demoTieB, demoTieA] = [demoTieA, demoTieB]
      ∧ sortNetworks [demoTieA, demoTieB] = [demoTieA, demoTieB] :=
  ⟨fun l => ⟨sortNetworks_perm l, sortNetworks_sorted_spec l⟩, by decide, by decide⟩

/-- C5: the ranking order is total (any two genomes are comparable) and the
sort is stable (genomes whose sort keys coincide keep their original relative
order). -/
theorem sortNetworks_total_stable :
    (∀ a b : Network, networkBefore a b ∨ networkBefore b a)
      ∧ ∀ (l : List Network) (a b : Network), sortKey a = sortKey b →
          [a, b].Sublist l → [a, b].Sublist (sortNetworks l) := by
  refine ⟨networkBefore_total, ?_⟩
  intro l a b hk hsub
  refine sortNetworks_stable ?_ hsub
  refine List.pairwise_cons.2 ⟨?_, List.pairwise_singleton _ _⟩
  intro y hy
  rw [List.mem_singleton.1 hy]
  exact hk.ge

/-- Closed instance of C5: two genomes with identical keys but different
remaining genes keep their input order through the sort. -/
theorem sortNetworks_total_stable_witness :
    [demoTieA, demoTieA2].Sublist (sortNetworks [demoTieA, demoTieA2]) :=
  sortNetworks_total_stable.2 [demoTieA, demoTieA2] demoTieA demoTieA2
    (by decide) (List.Sublist.refl _)

/-- C6: when the configured number of generations completes, the final
population is sorted and exactly the first five genomes of the sorted order
are handed, in ranked order, to the reporting collaborator — and that
hand-off is the run's only one. -/
theorem generate_reports_top_five (opt : Optimizer) (trainer : Trainer)
    (dataset : String) (G p : ℕ) (fin : List Network) (les es : List Event)
    (hloop : genLoop opt trainer dataset G (opt.create_population p) = some (fin, les))
    (h : generate opt trainer dataset G p = some es) :
    es.filter isReportTop = [Event.reportTop ((sortNetworks fin).take 5)]
      ∧ List.Sorted specGE ((sortNetworks fin).take 5)
      ∧ (sortNetworks fin).Perm fin := by
  obtain ⟨fin', les', hloop', hes⟩ := generate_inv h
  rw [hloop'] at hloop
  rw [Option.some.injEq, Prod.mk.injEq] at hloop
  obtain ⟨rfl, rfl⟩ := hloop
  subst hes
  refine ⟨?_, ?_, sortNetworks_perm _⟩
  · rw [List.filter_append, genLoop_events_filter opt trainer dataset hloop'
      isReportTop (fun _ _ => rfl) (fun _ => rfl) rfl]
    rfl
  · exact List.Pairwise.sublist (List.take_sublist 5 _) (sortNetworks_sorted_spec _)

/-- Closed instance of C6: the demo run hands over exactly the first five of
its sorted final population, in sorted order. -/
theorem generate_reports_top_five_witness :
    demoTrace.filter isReportTop
        = [Event.reportTop ((sortNetworks demoLoopRes.1).take 5)]
      ∧ List.Sorted specGE ((sortNetworks demoLoopRes.1).take 5) :=
  ⟨(generate_reports_top_five demoOpt demoTrainer "d" 3 2 demoLoopRes.1
      demoLoopRes.2 demoTrace (by rfl) (by rfl)).1,
   (generate_reports_top_five demoOpt demoTrainer "d" 3 2 demoLoopRes.1
      demoLoopRes.2 demoTrace (by rfl) (by rfl)).2.1⟩

/-- C7: a training failure is contained: evaluation of the whole population
still completes, returning exactly one (possibly updated) genome per input
genome, a failing unevaluated genome gets the worst possible fitness (zero),
and the generation loop never aborts (for any trainer, including failing
ones, given nonempty populations). -/
theorem train_failure_contained (opt : Optimizer) (trainer : Trainer)
    (dataset : String) :
    (∀ pop : List Network,
        (train_networks trainer pop dataset).1.length = pop.length
          ∧ (train_networks trainer pop dataset).1
              = pop.map (fun x => (Network.train trainer dataset x).1))
      ∧ (∀ x : Network, x.accuracy = 0 → trainer x dataset = Except.error () →
          (Network.train trainer dataset x).1.accuracy = 0)
      ∧ ∀ (G p : ℕ), opt.create_population p ≠ [] →
          (∀ l, l ≠ [] → opt.evolve l ≠ []) →
          ∃ es, generate opt trainer dataset G p = some es := by
  refine ⟨fun pop => ⟨train_networks_length trainer pop dataset,
    train_networks_fst trainer pop dataset⟩, ?_, ?_⟩
  · intro x hx herr
    unfold Network.train
    rw [if_pos hx, herr]
  · intro G p hpop hev
    obtain ⟨fin, es, hfin⟩ := genLoop_isSome opt trainer dataset hev G _ hpop
    refine ⟨es ++ print_networks ((sortNetworks fin).take 5), ?_⟩
    simp only [generate]
    rw [hfin]

/-- Closed instance of C7, the spec's failure scenario: a population of five
where training fails for one genome still evaluates all five, records zero
for the failing genome, and the whole run completes. -/
theorem train_failure_contained_witness :
    (train_networks demoFailTrainer demoPop5 "d").1.length = demoPop5.length
      ∧ (Network.train demoFailTrainer "d" demoNet5).1.accuracy = 0
      ∧ ∃ es, generate demoOpt demoFailTrainer "d" 2 5 = some es :=
  ⟨((train_failure_contained demoOpt demoFailTrainer "d").1 demoPop5).1,
   (train_failure_contained demoOpt demoFailTrainer "d").2.1 demoNet5
     (by decide) (by rfl),
   (train_failure_contained demoOpt demoFailTrainer "d").2.2 2 5 (by decide)
     (fun _ hl => hl)⟩

/-- C8: for every non-empty list of genomes, `get_average_accuracy` returns
the arithmetic mean of their fitness values: the sum of every genome's
accuracy divided by the number of genomes. -/
theorem get_average_accuracy_mean (l : List Network) (h : l ≠ []) :
    get_average_accuracy l
      = some ((l.map Network.accuracy).sum / (l.length : ℚ)) := by
  rw [get_average_accuracy_of_ne_nil l h, List.sum_eq_foldl, List.foldl_map]

/-- Closed instance of C8 on a two-genome population. -/
theorem get_average_accuracy_mean_witness :
    get_average_accuracy demoAvgPop
      = some ((demoAvgPop.map Network.accuracy).sum / (demoAvgPop.length : ℚ)) :=
  get_average_accuracy_mean demoAvgPop (by decide)

/-- C9: `get_average_accuracy` divides by the input length with no emptiness
guard: on the empty list the operation fails (Python's division by zero,
embedded as `none`) rather than returning a value, while on every non-empty
list it returns a value. -/
theorem get_average_accuracy_empty_fails :
    get_average_accuracy [] = none
      ∧ ∀ l : List Network, l ≠ [] → ∃ q, get_average_accuracy l = some q := by
  refine ⟨rfl, fun l h => ?_⟩
  rw [get_average_accuracy_of_ne_nil l h]
  exact ⟨_, rfl⟩

/-- Closed instance of C9's non-empty half on a singleton population. -/
theorem get_average_accuracy_empty_fails_witness :
    ∃ q, get_average_accuracy [demoNet] = some q :=
  get_average_accuracy_empty_fails.2 [demoNet] (by decide)

/-- C10: `generate_top_network_file` is never invoked by `main` or
`generate`: a complete run through `main` emits no CSV write and reports only
through the single `print_networks` hand-off. -/
theorem main_run_writes_no_csv (opt : Optimizer) (trainer : Trainer)
    (dataset : String) (es : List Event)
    (h : main_run opt trainer dataset = some es) :
    es.filter isWriteCSV = []
      ∧ ∃ l, es.filter isReportTop = [Event.reportTop l] := by
  obtain ⟨fin, les, hloop, rfl⟩ :=
    generate_inv (show generate opt trainer dataset 12 20 = some es from h)
  constructor
  · rw [List.filter_append, genLoop_events_filter opt trainer dataset hloop
      isWriteCSV (fun _ _ => rfl) (fun _ => rfl) rfl]
    rfl
  · refine ⟨(sortNetworks fin).take 5, ?_⟩
    rw [List.filter_append, genLoop_events_filter opt trainer dataset hloop
      isReportTop (fun _ _ => rfl) (fun _ => rfl) rfl]
    rfl

/-- Closed instance of C10: a full default run (12 generations, population
20) emits no CSV write. -/
theorem main_run_writes_no_csv_witness :
    demoMainTrace.filter isWriteCSV = [] :=
  (main_run_writes_no_csv demoOpt demoTrainer "d" demoMainTrace (by rfl)).1
